import Mathlib

/-
Shallow embedding of docleaner-web (src/main.py), a pipeline that rasterizes
the pages of a pdf, optionally cleans each page image through a remote
browser-driven service, optionally runs OCR, and merges the results back into
a single pdf.

The embedding mirrors the four Python functions:
  clean_doc_online      -> cleanDocOnline / cleanLoop
  convert_pdf_to_images -> convertPdfToImages / renderLoop
  convert_images_to_pdf -> convertImagesToPdf / asmLoop
  main                  -> mainImages / mainRun

External collaborators (selenium, fitz, PIL, pytesseract) are modelled as
oracles or abstract data, and each driver function additionally records a
trace of the observable events it performs (session open, element waits,
uploads, result retrievals, session quit, page consumption, document save),
so that ordering and resource-lifecycle properties can be stated.

Python generators are modelled by their yield sequence together with a
terminator: `none` stands for a `StopIteration` at the end of the sequence,
`some e` for an exception `e` raised in place of the next yield.
-/

namespace Docleaner

/-- Decoded pixel image (model of a PIL `Image.Image`): only the attributes
the pipeline reads are kept. -/
structure Img where
  width : Nat
  height : Nat
  deriving Repr, DecidableEq

/-- Python exceptions that the code under `src/main.py` can raise or
propagate. -/
inductive PyError where
  /-- `raise RuntimeError(...)` for an unknown browser type. -/
  | runtimeError (msg : String)
  /-- `selenium TimeoutException` from an expired `WebDriverWait`. -/
  | timeoutException
  /-- `IndexError` from `fitz` when a page index is outside the document. -/
  | indexError (msg : String)
  /-- `AttributeError`, e.g. reading `.width` on a `str`. -/
  | attributeError (msg : String)
  /-- `FileNotFoundError`, e.g. opening the empty path. -/
  | fileNotFoundError (msg : String)
  /-- `ValueError`, e.g. `fitz` refusing to save a document with no pages. -/
  | valueError (msg : String)
  /-- Failure of the external OCR engine. -/
  | recognitionError (msg : String)
  deriving Repr, DecidableEq

/-- Observable events of `clean_doc_online` (src/main.py lines 43-115). -/
inductive CleanEvent where
  /-- Construction of the webdriver (`webdriver.Chrome()` etc.). -/
  | openSession (browser : String)
  /-- `browser.get("http://www.docleaner.cn/experience.html")`. -/
  | navigate
  /-- A `WebDriverWait(browser, timeout)` for a page element (the two option
  buttons and the uploader), recording the timeout used. -/
  | waitElem (timeout : Nat)
  /-- `.click()` on a located element. -/
  | click
  /-- `time.sleep(secs)`. -/
  | sleep (secs : Nat)
  /-- The `idx`-th `next(images)` call on the input generator (0-based). -/
  | fetch (idx : Nat)
  /-- `uploader.send_keys(path)`: hands a file path to the upload input. -/
  | submit (path : String)
  /-- A `WebDriverWait(browser, timeout)` for the result image
  (`dragImgRight`), recording the timeout used. -/
  | waitResult (timeout : Nat)
  /-- Reading and decoding the result image (`get_attribute("src")`,
  base64 decode). -/
  | retrieve
  /-- `yield Image.open(...)`: a cleaned image is produced. -/
  | yieldImg
  /-- `browser.quit()`: the session is closed. -/
  | quit
  deriving Repr, DecidableEq

/-- Result of running the `clean_doc_online` generator to completion:
its event trace, the images it yielded, and its terminator (`none` for a
normal end, `some e` when exception `e` escapes the generator). -/
structure CleanOut where
  trace : List CleanEvent
  yields : List Img
  term : Option PyError
  deriving Repr, DecidableEq

/-- The browser names accepted by the `if`/`elif` chain in
`clean_doc_online` (src/main.py lines 52-61). -/
def allowedBrowsers : List String := ["chrome", "firefox", "safari", "edge"]

/-- The `while True` loop of `clean_doc_online` (src/main.py lines 89-111),
entered with one page already submitted.

Parameters: `waitOk` tells whether the n-th `WebDriverWait` of the run
succeeds (expiry raises `TimeoutException`); `cleanFn` models the remote
cleaning service, mapping the submitted page path to the decoded result
image; `imgsTerm` is the input generator terminator; `cur` is the path of
the page currently in flight (submitted, result not yet retrieved); `rest`
the remaining input yields; `idx` the index of the next `next(images)`
call; `w` the index of the next wait; `tr`/`ys` the trace and yields
accumulated so far.

The body follows the source line by line: fetch the next image first, then
wait for and retrieve the current page result, yield it, and only then
either break (on the `""` sentinel) or submit the fetched image. When the
input is exhausted, `StopIteration` is caught (`except StopIteration:
pass`) and the browser is quit, but any other exception from `next(images)`
or an expired wait propagates without reaching `browser.quit()`. -/
def cleanLoop (waitOk : Nat → Bool) (cleanFn : String → Img)
    (imgsTerm : Option PyError) (cur : String) :
    List String → Nat → Nat → List CleanEvent → List Img → CleanOut
  | [], idx, _, tr, ys =>
    match imgsTerm with
    | none => ⟨tr ++ [.fetch idx, .quit], ys, none⟩
    | some e => ⟨tr ++ [.fetch idx], ys, some e⟩
  | nextImage :: rest, idx, w, tr, ys =>
    if waitOk w then
      if nextImage = "" then
        ⟨tr ++ [.fetch idx, .waitResult 10, .retrieve, .yieldImg, .quit],
         ys ++ [cleanFn cur], none⟩
      else
        cleanLoop waitOk cleanFn imgsTerm nextImage rest (idx + 1) (w + 1)
          (tr ++ [.fetch idx, .waitResult 10, .retrieve, .yieldImg, .submit nextImage])
          (ys ++ [cleanFn cur])
    else
      ⟨tr ++ [.fetch idx, .waitResult 10], ys, some .timeoutException⟩

/-- Model of `clean_doc_online` (src/main.py lines 43-115), run to
completion against an input generator with yields `images` and terminator
`imgsTerm`. The browser dispatch, the two option-button waits/clicks, the
one-second sleep, the uploader wait, and the initial `next`/`send_keys`
inside the `try` block are laid out in source order; the hard-coded
`timeout = 10` (line 64) is the timeout recorded on every wait event. -/
def cleanDocOnline (browser : String) (waitOk : Nat → Bool)
    (cleanFn : String → Img) (images : List String)
    (imgsTerm : Option PyError) : CleanOut :=
  if browser ∈ allowedBrowsers then
    if waitOk 0 then
      if waitOk 1 then
        if waitOk 2 then
          let tr : List CleanEvent :=
            [.openSession browser, .navigate, .waitElem 10, .click,
             .waitElem 10, .click, .sleep 1, .waitElem 10]
          match images with
          | [] =>
            match imgsTerm with
            | none => ⟨tr ++ [.fetch 0, .quit], [], none⟩
            | some e => ⟨tr ++ [.fetch 0], [], some e⟩
          | p :: rest =>
            cleanLoop waitOk cleanFn imgsTerm p rest 1 3
              (tr ++ [.fetch 0, .submit p]) []
        else
          ⟨[.openSession browser, .navigate, .waitElem 10, .click,
            .waitElem 10, .click, .sleep 1, .waitElem 10], [],
           some .timeoutException⟩
      else
        ⟨[.openSession browser, .navigate, .waitElem 10, .click, .waitElem 10],
         [], some .timeoutException⟩
    else
      ⟨[.openSession browser, .navigate, .waitElem 10], [],
       some .timeoutException⟩
  else
    ⟨[], [], some (.runtimeError "Unknown browser type")⟩

/-- Python `range(a, b)` over integers. -/
def pythonRange (a b : Int) : List Int :=
  (List.range (b - a).toNat).map (fun (k : Nat) => a + (k : Int))

/-- Validity of a `fitz` page subscript `doc[i]` for a document of
`pc` pages: negative indices count from the end; anything outside
`[-pc, pc)` raises `IndexError("page not in document")`. -/
def pageInDoc (pc : Nat) (i : Int) : Bool :=
  decide (-(pc : Int) ≤ i) && decide (i < (pc : Int))

/-- The intermediate image filename `f"{i}.{fmt}"` written for page `i`
(src/main.py line 151; the enclosing directory path is abstracted away). -/
def pageName (i : Int) (fmt : String) : String :=
  toString i ++ "." ++ fmt

/-- The `for i in range(first_page, last_page)` loop body of
`convert_pdf_to_images` (src/main.py lines 150-154): renders and yields one
file per index until an index falls outside the document, in which case
`doc[i]` raises `IndexError` and the generator dies with it. -/
def renderLoop (pc : Nat) (fmt : String) :
    List Int → (List String × Option PyError)
  | [] => ([], none)
  | i :: rest =>
    if pageInDoc pc i then
      let out := renderLoop pc fmt rest
      (pageName i fmt :: out.1, out.2)
    else
      ([], some (.indexError "page not in document"))

/-- Yield sequence of a path-producing generator, with terminator. -/
structure GenOut where
  items : List String
  term : Option PyError
  deriving Repr, DecidableEq

/-- Model of `convert_pdf_to_images` (src/main.py lines 118-162) for a
document of `pc` pages (the `fitz.Document(pdf)` handle is abstracted to
its page count; rendering density has no observable effect here and is
omitted). The 1-based inclusive bounds are normalized exactly as in the
source: `first_page = 0 if first_page is None else first_page - 1`,
`last_page = doc.page_count if last_page is None else last_page`. When
`output` is `none` a temporary directory is used and, after the loop, an
empty string is yielded as a sentinel to keep the directory alive. -/
def convertPdfToImages (pc : Nat) (fmt : String) (output : Option String)
    (firstPage lastPage : Option Int) : GenOut :=
  let fp : Int := match firstPage with | none => 0 | some f => f - 1
  let lp : Int := match lastPage with | none => (pc : Int) | some l => l
  let out := renderLoop pc fmt (pythonRange fp lp)
  match out.2 with
  | some e => ⟨out.1, some e⟩
  | none =>
    match output with
    | none => ⟨out.1 ++ [""], none⟩
    | some _ => ⟨out.1, none⟩

/-- A value flowing into `convert_images_to_pdf`'s loop. Python is
dynamically typed: with cleaning enabled these are PIL images, but with
cleaning disabled `main` feeds the file-path strings (and the sentinel
`""`) from `convert_pdf_to_images` straight through. -/
inductive Artifact where
  | path (p : String)
  | img (i : Img)
  deriving Repr, DecidableEq

/-- A page of the output `fitz` document. -/
inductive Page where
  /-- Page created by `doc.new_page(width=..., height=...)` with the source
  image inserted into `fitz.Rect(0, 0, image.width, image.height)`. -/
  | imagePage (width height rectW rectH : Nat) (src : Img)
  /-- A page coming from an OCR-produced single-page pdf fragment,
  identified abstractly. -/
  | ocrPage (tag : Nat)
  deriving Repr, DecidableEq

/-- Observable events of `convert_images_to_pdf`. -/
inductive AsmEvent where
  /-- One iteration of the `for image in images` loop consuming an item. -/
  | consume
  /-- `doc.save(output)`: the output file is written. -/
  | save
  deriving Repr, DecidableEq

/-- Result of `convert_images_to_pdf`: the trace, the outcome (final page
list, or the first exception), and the contents of the output file if one
was written. -/
structure AsmOut where
  trace : List AsmEvent
  result : Except PyError (List Page)
  saved : Option (List Page)
  deriving Repr

/-- Model of `pytesseract.image_to_pdf_or_hocr` followed by
`fitz.Document(stream=pdf)` (src/main.py lines 181-182). pytesseract
accepts either a PIL image or a file-path string; the empty path cannot be
opened. `recImg`/`recPath` are oracles for the external OCR engine,
returning the pages of the produced pdf fragment. -/
def imageToPdfOrHocr (recImg : Img → Except PyError (List Page))
    (recPath : String → Except PyError (List Page)) :
    Artifact → Except PyError (List Page)
  | .img i => recImg i
  | .path p =>
    if p = "" then .error (.fileNotFoundError "No such file or directory")
    else recPath p

/-- The non-OCR branch of the loop (src/main.py lines 184-190):
`doc.new_page(width=image.width, height=image.height)` then
`page.insert_image(fitz.Rect(0, 0, image.width, image.height), ...)`.
Reading `.width` on a string raises `AttributeError`. -/
def newImagePage : Artifact → Except PyError (List Page)
  | .img i => .ok [.imagePage i.width i.height i.width i.height i]
  | .path _ => .error (.attributeError "str object has no attribute width")

/-- One iteration body of the `for image in images` loop of
`convert_images_to_pdf` (src/main.py lines 179-190), producing the pages
appended to the output document. -/
def asmStep (ocr : Bool) (recImg : Img → Except PyError (List Page))
    (recPath : String → Except PyError (List Page)) (a : Artifact) :
    Except PyError (List Page) :=
  if ocr then imageToPdfOrHocr recImg recPath a else newImagePage a

/-- The consumption loop of `convert_images_to_pdf`: processes artifacts in
order, stopping at the first exception. -/
def asmLoop (ocr : Bool) (recImg : Img → Except PyError (List Page))
    (recPath : String → Except PyError (List Page)) :
    List Artifact → List AsmEvent → List Page →
    (List AsmEvent × Except PyError (List Page))
  | [], tr, pages => (tr, .ok pages)
  | a :: rest, tr, pages =>
    match asmStep ocr recImg recPath a with
    | .error e => (tr ++ [.consume], .error e)
    | .ok ps => asmLoop ocr recImg recPath rest (tr ++ [.consume]) (pages ++ ps)

/-- Model of `convert_images_to_pdf` (src/main.py lines 165-191) run over a
generator with yields `arts` and terminator `term`. The loop consumes all
items; if the generator then raises (`term = some e`) the exception
propagates before `doc.save` is reached. `doc.save(output)` runs only after
a normal loop exit, and `fitz` refuses to save a document with no pages. -/
def convertImagesToPdf (ocr : Bool)
    (recImg : Img → Except PyError (List Page))
    (recPath : String → Except PyError (List Page))
    (arts : List Artifact) (term : Option PyError) : AsmOut :=
  let out := asmLoop ocr recImg recPath arts [] []
  match out.2 with
  | .error e => ⟨out.1, .error e, none⟩
  | .ok pages =>
    match term with
    | some e => ⟨out.1, .error e, none⟩
    | none =>
      if pages.isEmpty then
        ⟨out.1, .error (.valueError "cannot save with zero pages"), none⟩
      else
        ⟨out.1 ++ [.save], .ok pages, some pages⟩

/-- The `images` generator that `main` (src/main.py lines 209-219) hands to
`convert_images_to_pdf`: the rendered page paths, piped through
`clean_doc_online` when cleaning is enabled, and passed through unchanged
(as path strings!) when it is not. -/
def mainImages (pc : Nat) (fmt browser : String)
    (firstPage lastPage : Option Int) (cleaning : Bool)
    (waitOk : Nat → Bool) (cleanFn : String → Img) :
    (List Artifact × Option PyError) :=
  let strm := convertPdfToImages pc fmt none firstPage lastPage
  if cleaning then
    let out := cleanDocOnline browser waitOk cleanFn strm.items strm.term
    (out.yields.map Artifact.img, out.term)
  else
    (strm.items.map Artifact.path, strm.term)

/-- Model of `main` (src/main.py lines 209-219): the full pipeline for a
`pc`-page input document (the progress-bar `total` hint has no observable
effect and is omitted). -/
def mainRun (pc : Nat) (fmt browser : String)
    (firstPage lastPage : Option Int) (ocr cleaning : Bool)
    (waitOk : Nat → Bool) (cleanFn : String → Img)
    (recImg : Img → Except PyError (List Page))
    (recPath : String → Except PyError (List Page)) : AsmOut :=
  let strm := mainImages pc fmt browser firstPage lastPage cleaning waitOk cleanFn
  convertImagesToPdf ocr recImg recPath strm.1 strm.2

/-- Wait oracle under which every `WebDriverWait` succeeds. -/
def allOk : Nat → Bool := fun _ => true

/-- Concrete cleaning-service oracle used in concrete runs. -/
def constImg : String → Img := fun _ => ⟨100, 150⟩

/-- Concrete OCR oracle (image input) used in concrete runs. -/
def recOk : Img → Except PyError (List Page) := fun _ => .ok [.ocrPage 0]

/-- Concrete OCR oracle (path input) used in concrete runs. -/
def recPathOk : String → Except PyError (List Page) := fun _ => .ok [.ocrPage 0]

/-- The run of `clean_doc_online` over the output of
`convert_pdf_to_images` for a whole `pc`-page document, with `main`'s CLI
defaults (`png` intermediate format, `chrome` browser) and every wait
succeeding. -/
def fullDocRun (pc : Nat) (cleanFn : String → Img) : CleanOut :=
  cleanDocOnline "chrome" allOk cleanFn
    (convertPdfToImages pc "png" none none none).items
    (convertPdfToImages pc "png" none none none).term

/-- Same full-document run, but the result wait for page `k` (the
`(3 + k)`-th wait of the run, after the three setup waits) times out. -/
def fullDocRunFail (pc k : Nat) : CleanOut :=
  cleanDocOnline "chrome" (fun n => !(n == 3 + k)) constImg
    (convertPdfToImages pc "png" none none none).items
    (convertPdfToImages pc "png" none none none).term

/-- A run of `clean_doc_online` over an arbitrary sentinel-terminated input
sequence (page paths followed by the `""` sentinel), with every wait
succeeding. -/
def sentinelRun (cleanFn : String → Img) (ns : List String) : CleanOut :=
  cleanDocOnline "chrome" allOk cleanFn (ns ++ [""]) none

/-- An upload of an actual page file: a `submit` event whose path is not
the `""` exhaustion sentinel (`send_keys("")` selects no file). -/
def isPageSubmit : CleanEvent → Bool
  | .submit p => !(p == "")
  | _ => false

/-- A result-retrieval event. -/
def isRetrieveEv : CleanEvent → Bool
  | .retrieve => true
  | _ => false

/-- A result-wait event. -/
def isWaitResultEv : CleanEvent → Bool
  | .waitResult _ => true
  | _ => false

/-- A page artifact in the stream handed to the assembly stage: a decoded
image, or a nonempty file path; the `""` lifetime sentinel is not a page
artifact. -/
def isPageArtifact : Artifact → Bool
  | .img _ => true
  | .path p => !(p == "")

/-- Walks a trace tracking how many submitted page uploads are awaiting
retrieval, starting from `k`. Returns `none` if at any point a second
upload is submitted while one is outstanding, or a retrieval happens with
nothing outstanding; otherwise returns the final outstanding count. -/
def flightCount : Nat → List CleanEvent → Option Nat
  | k, [] => some k
  | k, e :: tr =>
    if isPageSubmit e then
      match k with
      | 0 => flightCount 1 tr
      | _ + 1 => none
    else if isRetrieveEv e then
      match k with
      | 0 => none
      | k + 1 => flightCount k tr
    else flightCount k tr

/-- The trace produced by the steady-state loop on input `ns ++ [""]` when
every wait succeeds, entered with one page in flight and `idx` fetches
already performed: one five-event block per iteration, closing with
`quit`. -/
def okSeg : List String → Nat → List CleanEvent
  | [], idx => [.fetch idx, .waitResult 10, .retrieve, .yieldImg, .quit]
  | n :: ns, idx =>
    [.fetch idx, .waitResult 10, .retrieve, .yieldImg, .submit n] ++
      okSeg ns (idx + 1)

/-- The setup prefix of every successful-session trace. -/
def setupTrace (b : String) : List CleanEvent :=
  [.openSession b, .navigate, .waitElem 10, .click, .waitElem 10, .click,
   .sleep 1, .waitElem 10]

/-- The intermediate filenames produced for a whole `pc`-page document. -/
def natPageNames (pc : Nat) : List String :=
  (List.range pc).map (fun (k : Nat) => pageName (k : Int) "png")

/-- The filenames of pages `1, ..., m` (all pages after page `0`). -/
def tailNames (m : Nat) : List String :=
  (List.range m).map (fun (k : Nat) => pageName ((k : Int) + 1) "png")

/-- Whether a pipeline step completed without raising. -/
def exceptOk : Except PyError (List Page) → Bool
  | .ok _ => true
  | .error _ => false

/-- Concrete OCR oracle that always fails, for concrete error runs. -/
def recFail : Img → Except PyError (List Page) :=
  fun _ => .error (.recognitionError "tesseract failed")

end Docleaner

namespace Docleaner

section ListHelpers

variable {α : Type _}

theorem getElemAppend (l1 l2 : List α) (n : Nat) :
    (l1 ++ l2)[l1.length + n]? = l2[n]? := by
  induction l1 with
  | nil => simp
  | cons a l ih => simpa [Nat.succ_add] using ih

theorem takeAppend (l1 l2 : List α) (n : Nat) :
    (l1 ++ l2).take (l1.length + n) = l1 ++ l2.take n := by
  induction l1 with
  | nil => simp
  | cons a l ih => simpa [Nat.succ_add, List.take_succ_cons] using ih

end ListHelpers

section FlightCount

theorem flightCount_append (k : Nat) (a b : List CleanEvent) :
    flightCount k (a ++ b) = (flightCount k a).bind (fun j => flightCount j b) := by
  induction a generalizing k with
  | nil => simp [flightCount]
  | cons e a ih =>
    by_cases hs : isPageSubmit e = true
    · cases k with
      | zero => simp [flightCount, hs, ih]
      | succ k => simp [flightCount, hs]
    · by_cases hr : isRetrieveEv e = true
      · cases k with
        | zero => simp [flightCount, hs, hr]
        | succ k => simp [flightCount, hs, hr, ih]
      · simp [flightCount, hs, hr, ih]

theorem flightCount_count (l : List CleanEvent) :
    ∀ (k m : Nat), flightCount k l = some m →
      m + l.countP isRetrieveEv = k + l.countP isPageSubmit := by
  induction l with
  | nil => intro k m h; simp [flightCount] at h; simp [h]
  | cons e l ih =>
    intro k m h
    by_cases hs : isPageSubmit e = true
    · cases k with
      | zero =>
        simp only [flightCount, hs, if_pos] at h
        have := ih 1 m h
        have hr : isRetrieveEv e = false := by
          cases e <;> simp_all [isPageSubmit, isRetrieveEv]
        simp [List.countP_cons, hs, hr]
        omega
      | succ k => simp [flightCount, hs] at h
    · by_cases hr : isRetrieveEv e = true
      · cases k with
        | zero => simp [flightCount, hs, hr] at h
        | succ k =>
          simp only [flightCount, hs, hr, if_neg, if_pos, Bool.false_eq_true,
            not_false_iff] at h
          have := ih k m h
          simp [List.countP_cons, hs, hr]
          omega
      · simp only [flightCount, hs, hr, if_neg, Bool.false_eq_true,
          not_false_iff] at h
        have := ih k m h
        simp [List.countP_cons, hs, hr]
        omega

theorem flightCount_le_one (l : List CleanEvent) :
    ∀ (k m : Nat), k ≤ 1 → flightCount k l = some m → m ≤ 1 := by
  induction l with
  | nil => intro k m hk h; simp [flightCount] at h; omega
  | cons e l ih =>
    intro k m hk h
    by_cases hs : isPageSubmit e = true
    · cases k with
      | zero =>
        simp only [flightCount, hs, if_pos] at h
        exact ih 1 m (by omega) h
      | succ k => simp [flightCount, hs] at h
    · by_cases hr : isRetrieveEv e = true
      · cases k with
        | zero => simp [flightCount, hs, hr] at h
        | succ k =>
          simp only [flightCount, hs, hr, if_neg, if_pos, Bool.false_eq_true,
            not_false_iff] at h
          exact ih k m (by omega) h
      · simp only [flightCount, hs, hr, if_neg, Bool.false_eq_true,
          not_false_iff] at h
        exact ih k m hk h

theorem flightCount_bounds (tr : List CleanEvent)
    (h : flightCount 0 tr = some 0) :
    ∀ p q : List CleanEvent, tr = p ++ q →
      p.countP isRetrieveEv ≤ p.countP isPageSubmit ∧
      p.countP isPageSubmit ≤ p.countP isRetrieveEv + 1 := by
  intro p q hpq
  rw [hpq, flightCount_append] at h
  rcases hp : flightCount 0 p with _ | j
  · rw [hp] at h; simp at h
  · have hj1 : j ≤ 1 := flightCount_le_one p 0 j (by omega) hp
    have := flightCount_count p 0 j hp
    omega

end FlightCount

end Docleaner

namespace Docleaner

section OkSeg

theorem okSeg_countP_pageSubmit (ns : List String) (idx : Nat)
    (h : ∀ n ∈ ns, n ≠ "") :
    (okSeg ns idx).countP isPageSubmit = ns.length := by
  induction ns generalizing idx with
  | nil => simp [okSeg, isPageSubmit]
  | cons n ns ih =>
    have hn : n ≠ "" := h n (by simp)
    have hs : isPageSubmit (.submit n) = true := by
      simp [isPageSubmit, hn]
    simp only [okSeg, List.countP_append]
    rw [ih (idx + 1) (fun x hx => h x (by simp [hx]))]
    simp [List.countP_cons, isPageSubmit, hn, List.length_cons]
    omega

theorem okSeg_countP_retrieve (ns : List String) (idx : Nat) :
    (okSeg ns idx).countP isRetrieveEv = ns.length + 1 := by
  induction ns generalizing idx with
  | nil => simp [okSeg, isRetrieveEv]
  | cons n ns ih =>
    simp only [okSeg, List.countP_append]
    rw [ih (idx + 1)]
    simp [List.countP_cons, isRetrieveEv, List.length_cons]
    omega

theorem okSeg_flightCount (ns : List String) (idx : Nat)
    (h : ∀ n ∈ ns, n ≠ "") :
    flightCount 1 (okSeg ns idx) = some 0 := by
  induction ns generalizing idx with
  | nil => simp [okSeg, flightCount, isPageSubmit, isRetrieveEv]
  | cons n ns ih =>
    have hn : n ≠ "" := h n (by simp)
    have hbeq : (n == "") = false := by
      exact beq_eq_false_iff_ne.mpr hn
    simp only [okSeg, List.cons_append, List.nil_append]
    simp [flightCount, isPageSubmit, isRetrieveEv, hbeq]
    exact ih (idx + 1) (fun x hx => h x (by simp [hx]))

theorem okSeg_getLast (ns : List String) (idx : Nat) :
    (okSeg ns idx).getLast? = some .quit := by
  induction ns generalizing idx with
  | nil => simp [okSeg]
  | cons n ns ih =>
    have hrep : okSeg (n :: ns) idx =
        [CleanEvent.fetch idx, .waitResult 10, .retrieve, .yieldImg,
         .submit n] ++ okSeg ns (idx + 1) := rfl
    rw [hrep, List.getLast?_append, ih (idx + 1)]
    rfl

theorem okSeg_getElem_fetch (ns : List String) (idx m : Nat)
    (h : m ≤ ns.length) :
    (okSeg ns idx)[5 * m]? = some (.fetch (idx + m)) := by
  induction m generalizing ns idx with
  | zero => cases ns <;> simp [okSeg]
  | succ m ih =>
    cases ns with
    | nil => simp at h
    | cons n ns =>
      have h5 : 5 * (m + 1) = 5 + 5 * m := by ring
      simp only [okSeg, h5]
      have := getElemAppend
        [CleanEvent.fetch idx, .waitResult 10, .retrieve, .yieldImg, .submit n]
        (okSeg ns (idx + 1)) (5 * m)
      simp only [List.length_cons, List.length_nil] at this
      rw [this, ih ns (idx + 1) (by simpa using h)]
      congr 2
      omega

theorem okSeg_getElem_wait (ns : List String) (idx m : Nat)
    (h : m ≤ ns.length) :
    (okSeg ns idx)[5 * m + 1]? = some (.waitResult 10) := by
  induction m generalizing ns idx with
  | zero => cases ns <;> simp [okSeg]
  | succ m ih =>
    cases ns with
    | nil => simp at h
    | cons n ns =>
      have h5 : 5 * (m + 1) + 1 = 5 + (5 * m + 1) := by ring
      simp only [okSeg, h5]
      have := getElemAppend
        [CleanEvent.fetch idx, .waitResult 10, .retrieve, .yieldImg, .submit n]
        (okSeg ns (idx + 1)) (5 * m + 1)
      simp only [List.length_cons, List.length_nil] at this
      rw [this, ih ns (idx + 1) (by simpa using h)]

theorem okSeg_take_wait_count (ns : List String) (idx m : Nat)
    (h : m ≤ ns.length) :
    ((okSeg ns idx).take (5 * m + 1)).countP isWaitResultEv = m := by
  induction m generalizing ns idx with
  | zero => cases ns <;> simp [okSeg, isWaitResultEv]
  | succ m ih =>
    cases ns with
    | nil => simp at h
    | cons n ns =>
      have h5 : 5 * (m + 1) + 1 = 5 + (5 * m + 1) := by ring
      simp only [okSeg, h5]
      have := takeAppend
        [CleanEvent.fetch idx, .waitResult 10, .retrieve, .yieldImg, .submit n]
        (okSeg ns (idx + 1)) (5 * m + 1)
      simp only [List.length_cons, List.length_nil] at this
      rw [this, List.countP_append, ih ns (idx + 1) (by simpa using h)]
      simp [List.countP_cons, isWaitResultEv]
      omega

end OkSeg

section CleanLoopChar

theorem cleanLoop_ok (cleanFn : String → Img) (ns : List String) :
    ∀ (cur : String) (idx w : Nat) (tr : List CleanEvent) (ys : List Img),
    (∀ n ∈ ns, n ≠ "") →
    cleanLoop allOk cleanFn none cur (ns ++ [""]) idx w tr ys =
      ⟨tr ++ okSeg ns idx, ys ++ cleanFn cur :: ns.map cleanFn, none⟩ := by
  induction ns with
  | nil =>
    intro cur idx w tr ys _
    simp [cleanLoop, allOk, okSeg]
  | cons n ns ih =>
    intro cur idx w tr ys h
    have hn : n ≠ "" := h n (by simp)
    have step : cleanLoop allOk cleanFn none cur ((n :: ns) ++ [""]) idx w tr ys =
        cleanLoop allOk cleanFn none n (ns ++ [""]) (idx + 1) (w + 1)
          (tr ++ [.fetch idx, .waitResult 10, .retrieve, .yieldImg, .submit n])
          (ys ++ [cleanFn cur]) := by
      simp [cleanLoop, allOk, hn]
    rw [step, ih n (idx + 1) (w + 1) _ _ (fun x hx => h x (by simp [hx]))]
    simp [okSeg, List.append_assoc]

theorem cleanRun_cons (b : String) (hb : b ∈ allowedBrowsers)
    (cleanFn : String → Img) (n : String) (ns : List String)
    (hns : ∀ x ∈ ns, x ≠ "") :
    cleanDocOnline b allOk cleanFn ((n :: ns) ++ [""]) none =
      ⟨setupTrace b ++ [.fetch 0, .submit n] ++ okSeg ns 1,
       (n :: ns).map cleanFn, none⟩ := by
  simp only [cleanDocOnline, hb, if_pos, allOk, List.cons_append]
  rw [cleanLoop_ok cleanFn ns n 1 3 _ [] hns]
  simp [setupTrace, List.append_assoc]

end CleanLoopChar

end Docleaner

namespace Docleaner

section RenderLemmas

theorem pythonRange_mem (a b i : Int) : i ∈ pythonRange a b ↔ a ≤ i ∧ i < b := by
  unfold pythonRange
  simp only [List.mem_map, List.mem_range]
  constructor
  · rintro ⟨k, hk, rfl⟩
    omega
  · rintro ⟨h1, h2⟩
    exact ⟨(i - a).toNat, by omega, by omega⟩

theorem pythonRange_length (a b : Int) :
    (pythonRange a b).length = (b - a).toNat := by
  unfold pythonRange
  rw [List.length_map, List.length_range]

theorem pageInDoc_true (pc : Nat) (i : Int) (h1 : -(pc : Int) ≤ i)
    (h2 : i < (pc : Int)) : pageInDoc pc i = true := by
  simp only [pageInDoc, Bool.and_eq_true, decide_eq_true_iff]
  exact ⟨h1, h2⟩

theorem renderLoop_ok (pc : Nat) (fmt : String) (l : List Int)
    (h : ∀ i ∈ l, pageInDoc pc i = true) :
    renderLoop pc fmt l = (l.map (fun i => pageName i fmt), none) := by
  induction l with
  | nil => simp [renderLoop]
  | cons i rest ih =>
    have hi := h i (by simp)
    simp [renderLoop, hi, ih (fun x hx => h x (by simp [hx]))]

theorem renderLoop_err (pc : Nat) (fmt : String) (l : List Int)
    (h : ∃ i ∈ l, pageInDoc pc i = false) :
    (renderLoop pc fmt l).2 = some (.indexError "page not in document") := by
  induction l with
  | nil => simp at h
  | cons i rest ih =>
    by_cases hi : pageInDoc pc i = true
    · have hex : ∃ x ∈ rest, pageInDoc pc x = false := by
        rcases h with ⟨x, hx, hxf⟩
        rcases List.mem_cons.mp hx with rfl | hx2
        · rw [hi] at hxf; cases hxf
        · exact ⟨x, hx2, hxf⟩
      simp [renderLoop, hi, ih hex]
    · simp [renderLoop, hi]

theorem pageName_ne (i : Int) (fmt : String) : pageName i fmt ≠ "" := by
  intro h
  have h1 := congrArg String.length h
  rw [pageName] at h1
  simp only [String.length_append] at h1
  have h2 : String.length "." = 1 := rfl
  have h3 : String.length "" = 0 := rfl
  omega

theorem convertPdf_valid (pc : Nat) (fmt : String) (first last : Int)
    (h0 : 1 ≤ first) (h2 : last ≤ (pc : Int)) :
    convertPdfToImages pc fmt none (some first) (some last) =
      ⟨(pythonRange (first - 1) last).map (fun i => pageName i fmt) ++ [""],
       none⟩ := by
  have hval : ∀ i ∈ pythonRange (first - 1) last, pageInDoc pc i = true := by
    intro i hi
    rw [pythonRange_mem] at hi
    exact pageInDoc_true pc i (by omega) (by omega)
  have hrl := renderLoop_ok pc fmt (pythonRange (first - 1) last) hval
  simp only [convertPdfToImages, hrl]

theorem convertPdf_fullDoc (pc : Nat) :
    convertPdfToImages pc "png" none none none =
      ⟨natPageNames pc ++ [""], none⟩ := by
  have hr : pythonRange 0 (pc : Int) =
      (List.range pc).map (fun (k : Nat) => (k : Int)) := by
    unfold pythonRange
    rw [show ((pc : Int) - 0).toNat = pc by simp]
    congr 1
    funext k
    rw [zero_add]
  have hval : ∀ i ∈ pythonRange 0 (pc : Int), pageInDoc pc i = true := by
    intro i hi
    rw [pythonRange_mem] at hi
    exact pageInDoc_true pc i (by omega) (by omega)
  have hrl := renderLoop_ok pc "png" (pythonRange 0 (pc : Int)) hval
  simp only [convertPdfToImages, hrl]
  rw [hr, List.map_map]
  rfl

theorem natPageNames_succ (m : Nat) :
    natPageNames (m + 1) = pageName 0 "png" :: tailNames m := by
  unfold natPageNames tailNames
  rw [List.range_succ_eq_map, List.map_cons, List.map_map]
  have hf : ((fun (k : Nat) => pageName (k : Int) "png") ∘ Nat.succ)
      = (fun (k : Nat) => pageName ((k : Int) + 1) "png") := by
    funext k
    simp only [Function.comp_apply]
    congr 1
  rw [hf]
  norm_num

theorem tailNames_ne (m : Nat) : ∀ x ∈ tailNames m, x ≠ "" := by
  intro x hx
  unfold tailNames at hx
  simp only [List.mem_map] at hx
  rcases hx with ⟨k, _, rfl⟩
  exact pageName_ne _ _

theorem tailNames_length (m : Nat) : (tailNames m).length = m := by
  unfold tailNames
  rw [List.length_map, List.length_range]

theorem fullDocRun_succ (m : Nat) (cleanFn : String → Img) :
    fullDocRun (m + 1) cleanFn =
      ⟨setupTrace "chrome" ++ [.fetch 0, .submit (pageName 0 "png")] ++
         okSeg (tailNames m) 1,
       (pageName 0 "png" :: tailNames m).map cleanFn, none⟩ := by
  unfold fullDocRun
  rw [convertPdf_fullDoc, natPageNames_succ]
  exact cleanRun_cons "chrome" (by decide) cleanFn _ _ (tailNames_ne m)

end RenderLemmas

end Docleaner

namespace Docleaner

section TimeoutLemmas

theorem cleanLoop_timeout (cleanFn : String → Img) :
    ∀ (k : Nat) (ns : List String) (cur : String) (idx w : Nat)
      (tr : List CleanEvent) (ys : List Img),
    (∀ n ∈ ns, n ≠ "") → k ≤ ns.length →
    (cleanLoop (fun x => !(x == w + k)) cleanFn none cur (ns ++ [""]) idx w tr ys).term
        = some .timeoutException ∧
    (cleanLoop (fun x => !(x == w + k)) cleanFn none cur (ns ++ [""]) idx w tr ys).yields
        = ys ++ ((cur :: ns).take k).map cleanFn ∧
    (CleanEvent.quit ∉ tr →
      CleanEvent.quit ∉
        (cleanLoop (fun x => !(x == w + k)) cleanFn none cur (ns ++ [""]) idx w tr ys).trace) := by
  intro k
  induction k with
  | zero =>
    intro ns cur idx w tr ys hns hk
    have hw : (!(w == w + 0)) = false := by simp
    cases ns with
    | nil => refine ⟨?_, ?_, ?_⟩ <;> simp [cleanLoop, hw]
    | cons n ns => refine ⟨?_, ?_, ?_⟩ <;> simp [cleanLoop, hw]
  | succ k ih =>
    intro ns cur idx w tr ys hns hk
    cases ns with
    | nil => simp at hk
    | cons n ns =>
      have hn : n ≠ "" := hns n (by simp)
      have hw : (!(w == w + (k + 1))) = true := by
        simp only [Bool.not_eq_true']
        simp only [beq_eq_false_iff_ne]
        omega
      have step : cleanLoop (fun x => !(x == w + (k + 1))) cleanFn none cur
            ((n :: ns) ++ [""]) idx w tr ys
          = cleanLoop (fun x => !(x == w + (k + 1))) cleanFn none n (ns ++ [""])
              (idx + 1) (w + 1)
              (tr ++ [.fetch idx, .waitResult 10, .retrieve, .yieldImg, .submit n])
              (ys ++ [cleanFn cur]) := by
        simp [cleanLoop, hw, hn]
      have harith : w + (k + 1) = (w + 1) + k := by omega
      rw [step]
      simp only [harith]
      have hns2 : ∀ x ∈ ns, x ≠ "" := fun x hx => hns x (by simp [hx])
      have hk2 : k ≤ ns.length := by simpa using hk
      rcases ih ns n (idx + 1) (w + 1)
          (tr ++ [.fetch idx, .waitResult 10, .retrieve, .yieldImg, .submit n])
          (ys ++ [cleanFn cur]) hns2 hk2 with ⟨hterm, hyields, htrace⟩
      refine ⟨hterm, ?_, ?_⟩
      · rw [hyields]
        simp [List.take_succ_cons, List.append_assoc]
      · intro hq
        apply htrace
        simp [List.mem_append, hq]

theorem cleanLoop_waits (waitOk : Nat → Bool) (cleanFn : String → Img)
    (imgsTerm : Option PyError) :
    ∀ (rest : List String) (cur : String) (idx w : Nat) (tr : List CleanEvent)
      (ys : List Img) (t : Nat),
      (CleanEvent.waitElem t ∈ (cleanLoop waitOk cleanFn imgsTerm cur rest idx w tr ys).trace ∨
       CleanEvent.waitResult t ∈ (cleanLoop waitOk cleanFn imgsTerm cur rest idx w tr ys).trace) →
      (CleanEvent.waitElem t ∈ tr ∨ CleanEvent.waitResult t ∈ tr ∨ t = 10) := by
  intro rest
  induction rest with
  | nil =>
    intro cur idx w tr ys t h
    cases imgsTerm <;> rcases h with h | h <;>
      simp [cleanLoop, List.mem_append] at h <;> tauto
  | cons n rest ih =>
    intro cur idx w tr ys t h
    by_cases hwk : waitOk w = true
    · by_cases hn : n = ""
      · subst hn
        rcases h with h | h <;> simp [cleanLoop, hwk, List.mem_append] at h <;>
          tauto
      · have step : cleanLoop waitOk cleanFn imgsTerm cur (n :: rest) idx w tr ys
            = cleanLoop waitOk cleanFn imgsTerm n rest (idx + 1) (w + 1)
                (tr ++ [.fetch idx, .waitResult 10, .retrieve, .yieldImg, .submit n])
                (ys ++ [cleanFn cur]) := by
          simp [cleanLoop, hwk, hn]
        rw [step] at h
        have := ih n (idx + 1) (w + 1)
          (tr ++ [.fetch idx, .waitResult 10, .retrieve, .yieldImg, .submit n])
          (ys ++ [cleanFn cur]) t h
        rcases this with h2 | h2 | h2
        · rcases List.mem_append.mp h2 with h3 | h3
          · tauto
          · simp at h3
        · rcases List.mem_append.mp h2 with h3 | h3
          · tauto
          · simp at h3
            tauto
        · tauto
    · rcases h with h | h <;>
        simp [cleanLoop, hwk, List.mem_append] at h <;> tauto

theorem cleanDoc_waits (b : String) (waitOk : Nat → Bool)
    (cleanFn : String → Img) (images : List String) (term : Option PyError)
    (t : Nat)
    (h : CleanEvent.waitElem t ∈ (cleanDocOnline b waitOk cleanFn images term).trace ∨
         CleanEvent.waitResult t ∈ (cleanDocOnline b waitOk cleanFn images term).trace) :
    t = 10 := by
  unfold cleanDocOnline at h
  by_cases hb : b ∈ allowedBrowsers
  · simp only [hb, if_pos] at h
    by_cases h0 : waitOk 0 = true
    · simp only [h0, if_pos] at h
      by_cases h1 : waitOk 1 = true
      · simp only [h1, if_pos] at h
        by_cases hw2 : waitOk 2 = true
        · simp only [hw2, if_pos] at h
          cases images with
          | nil =>
            cases term <;> rcases h with h | h <;> simp at h <;> tauto
          | cons p rest =>
            have := cleanLoop_waits waitOk cleanFn term rest p 1 3 _ [] t h
            rcases this with h2 | h2 | h2 <;> (try simp at h2) <;> tauto
        · simp only [hw2, if_neg, Bool.false_eq_true, not_false_iff] at h
          rcases h with h | h <;> simp at h <;> tauto
      · simp only [h1, if_neg, Bool.false_eq_true, not_false_iff] at h
        rcases h with h | h <;> simp at h <;> tauto
    · simp only [h0, if_neg, Bool.false_eq_true, not_false_iff] at h
      rcases h with h | h <;> simp at h <;> tauto
  · simp only [hb, if_neg, not_false_iff] at h
    rcases h with h | h <;> simp at h

end TimeoutLemmas

section AsmLemmas

theorem asmLoop_events (ocr : Bool) (recImg : Img → Except PyError (List Page))
    (recPath : String → Except PyError (List Page)) :
    ∀ (arts : List Artifact) (tr : List AsmEvent) (pages : List Page),
      ∀ e ∈ (asmLoop ocr recImg recPath arts tr pages).1, e ∈ tr ∨ e = .consume := by
  intro arts
  induction arts with
  | nil => intro tr pages e he; simp [asmLoop] at he; tauto
  | cons a rest ih =>
    intro tr pages e he
    rcases hstep : asmStep ocr recImg recPath a with err | ps
    · simp only [asmLoop, hstep] at he
      rcases List.mem_append.mp he with h | h
      · tauto
      · simp at h
        tauto
    · simp only [asmLoop, hstep] at he
      rcases ih (tr ++ [.consume]) (pages ++ ps) e he with h | h
      · rcases List.mem_append.mp h with h2 | h2
        · tauto
        · simp at h2
          tauto
      · tauto

theorem asmLoop_err (ocr : Bool) (recImg : Img → Except PyError (List Page))
    (recPath : String → Except PyError (List Page)) :
    ∀ (arts : List Artifact) (tr : List AsmEvent) (pages : List Page),
      (∃ a ∈ arts, exceptOk (asmStep ocr recImg recPath a) = false) →
      ∃ e, (asmLoop ocr recImg recPath arts tr pages).2 = .error e := by
  intro arts
  induction arts with
  | nil => intro tr pages h; simp at h
  | cons a rest ih =>
    intro tr pages h
    rcases hstep : asmStep ocr recImg recPath a with err | ps
    · exact ⟨err, by simp [asmLoop, hstep]⟩
    · simp only [asmLoop, hstep]
      apply ih
      rcases h with ⟨x, hx, hxf⟩
      rcases List.mem_cons.mp hx with rfl | hx2
      · rw [hstep] at hxf
        simp [exceptOk] at hxf
      · exact ⟨x, hx2, hxf⟩

end AsmLemmas

end Docleaner

namespace Docleaner

/-- C10: if the browser argument to the interactive cleaner is not one of
"chrome", "firefox", "safari" or "edge", the cleaner raises `RuntimeError`
before any session is opened or any page image is consumed from the input
sequence (the trace is empty: no `openSession`, no `fetch`), and nothing is
yielded. -/
theorem C10_unknown_browser (browser : String)
    (h : browser ∉ allowedBrowsers) (waitOk : Nat → Bool)
    (cleanFn : String → Img) (images : List String) (term : Option PyError) :
    (cleanDocOnline browser waitOk cleanFn images term).term
        = some (.runtimeError "Unknown browser type") ∧
    (cleanDocOnline browser waitOk cleanFn images term).trace = [] ∧
    (cleanDocOnline browser waitOk cleanFn images term).yields = [] := by
  refine ⟨?_, ?_, ?_⟩ <;> simp [cleanDocOnline, h]

/-- Witness for C10 at the concrete browser string "opera". -/
theorem C10_unknown_browser_witness :
    (cleanDocOnline "opera" allOk constImg ["0.png"] none).term
        = some (.runtimeError "Unknown browser type") ∧
    (cleanDocOnline "opera" allOk constImg ["0.png"] none).trace = [] ∧
    (cleanDocOnline "opera" allOk constImg ["0.png"] none).yields = [] :=
  C10_unknown_browser "opera" (by decide) allOk constImg ["0.png"] none

/-- C2 counterexample: for the finite input sequence `["a.png"]`, which is
exhausted (plain `StopIteration`) right after the page has been submitted,
the driver submits the page, terminates normally, and never retrieves or
yields its result: a submitted page's result IS left unretrieved at
termination, so the claim is false for arbitrary finite input sequences. -/
theorem C2_counterexample :
    (cleanDocOnline "chrome" allOk constImg ["a.png"] none).trace.countP
        isPageSubmit = 1 ∧
    (cleanDocOnline "chrome" allOk constImg ["a.png"] none).trace.countP
        isRetrieveEv = 0 ∧
    (cleanDocOnline "chrome" allOk constImg ["a.png"] none).yields = [] ∧
    (cleanDocOnline "chrome" allOk constImg ["a.png"] none).term = none := by
  refine ⟨?_, ?_, ?_, ?_⟩ <;> rfl

/-- C2 (amended): for every finite input sequence that consists of page
paths followed by the `""` exhaustion sentinel — the shape
`convert_pdf_to_images` produces in its default temporary-directory mode —
the driver retrieves and yields every submitted page's result (one yield
per page, final outstanding count zero) before `quit`, which is the last
event of the run. -/
theorem C2_amended_sentinel (cleanFn : String → Img) (ns : List String)
    (h : ∀ n ∈ ns, n ≠ "") :
    (sentinelRun cleanFn ns).term = none ∧
    (sentinelRun cleanFn ns).yields.length = ns.length ∧
    flightCount 0 (sentinelRun cleanFn ns).trace = some 0 ∧
    (sentinelRun cleanFn ns).trace.getLast? = some .quit := by
  cases ns with
  | nil => exact ⟨rfl, rfl, rfl, rfl⟩
  | cons n ns =>
    have hns : ∀ x ∈ ns, x ≠ "" := fun x hx => h x (by simp [hx])
    have hn : n ≠ "" := h n (by simp)
    have hbeq : (n == "") = false := beq_eq_false_iff_ne.mpr hn
    have hr := cleanRun_cons "chrome" (by decide) cleanFn n ns hns
    unfold sentinelRun
    rw [hr]
    refine ⟨rfl, by simp, ?_, ?_⟩
    · have h1 : flightCount 0
          (setupTrace "chrome" ++ [CleanEvent.fetch 0, CleanEvent.submit n]) = some 1 := by
        simp [setupTrace, flightCount, isPageSubmit, isRetrieveEv, hbeq]
      rw [flightCount_append, h1]
      simpa using okSeg_flightCount ns 1 hns
    · rw [List.getLast?_append, okSeg_getLast]
      rfl

/-- Witness for the amended C2 at the concrete sentinel-terminated input
`["a.png", "b.png", ""]`. -/
theorem C2_amended_sentinel_witness :
    (sentinelRun constImg ["a.png", "b.png"]).term = none ∧
    (sentinelRun constImg ["a.png", "b.png"]).yields.length = 2 ∧
    flightCount 0 (sentinelRun constImg ["a.png", "b.png"]).trace = some 0 ∧
    (sentinelRun constImg ["a.png", "b.png"]).trace.getLast? = some .quit :=
  C2_amended_sentinel constImg ["a.png", "b.png"] (by decide)

/-- C3 evaluated at a failing input: with the input `["a.png", ""]` and the
first result wait (the run's fourth wait) timing out, the
`TimeoutException` escapes `clean_doc_online` and `browser.quit()` is never
executed — the session is leaked on the error exit path, because
`browser.quit()` is only reached after the `try/except StopIteration`
block, not from a `finally`. -/
theorem C3_session_leak_on_timeout :
    (cleanDocOnline "chrome" (fun n => !(n == 3)) constImg ["a.png", ""] none).term
        = some .timeoutException ∧
    CleanEvent.quit ∉
      (cleanDocOnline "chrome" (fun n => !(n == 3)) constImg ["a.png", ""] none).trace ∧
    (cleanDocOnline "chrome" (fun n => !(n == 3)) constImg ["a.png", ""] none).yields
        = [] := by
  refine ⟨rfl, by decide, rfl⟩

end Docleaner

namespace Docleaner

/-- C1: in the pipelined interactive strategy over a whole `pc`-page
document (every wait succeeding), exactly `pc` page uploads and exactly
`pc` result retrievals occur; walking the trace, every retrieval matches an
outstanding upload and the run ends with nothing outstanding; and in every
prefix of the trace the number of page uploads exceeds the number of
retrievals by at most one — at no point are two unretrieved submissions
outstanding, and page `k+1` is uploaded only after page `k`'s result was
retrieved. -/
theorem C1_one_in_flight (pc : Nat) (cleanFn : String → Img) :
    (fullDocRun pc cleanFn).trace.countP isPageSubmit = pc ∧
    (fullDocRun pc cleanFn).trace.countP isRetrieveEv = pc ∧
    flightCount 0 (fullDocRun pc cleanFn).trace = some 0 ∧
    (∀ p q, (fullDocRun pc cleanFn).trace = p ++ q →
      p.countP isRetrieveEv ≤ p.countP isPageSubmit ∧
      p.countP isPageSubmit ≤ p.countP isRetrieveEv + 1) := by
  have hmain : (fullDocRun pc cleanFn).trace.countP isPageSubmit = pc ∧
      (fullDocRun pc cleanFn).trace.countP isRetrieveEv = pc ∧
      flightCount 0 (fullDocRun pc cleanFn).trace = some 0 := by
    cases pc with
    | zero =>
      have h0 : fullDocRun 0 cleanFn =
          ⟨setupTrace "chrome" ++ [.fetch 0, .submit "", .fetch 1, .quit],
           [], none⟩ := rfl
      rw [h0]
      refine ⟨rfl, rfl, rfl⟩
    | succ m =>
      rw [fullDocRun_succ]
      have hbeq : (pageName 0 "png" == "") = false :=
        beq_eq_false_iff_ne.mpr (pageName_ne 0 "png")
      have hsetup : (setupTrace "chrome" ++
          [CleanEvent.fetch 0, CleanEvent.submit (pageName 0 "png")]).countP
            isPageSubmit = 1 := by
        simp [setupTrace, List.countP_cons, isPageSubmit, hbeq]
      have hsetupr : (setupTrace "chrome" ++
          [CleanEvent.fetch 0, CleanEvent.submit (pageName 0 "png")]).countP
            isRetrieveEv = 0 := by
        simp [setupTrace, List.countP_cons, isRetrieveEv]
      refine ⟨?_, ?_, ?_⟩
      · rw [List.countP_append, hsetup,
          okSeg_countP_pageSubmit (tailNames m) 1 (tailNames_ne m),
          tailNames_length]
        omega
      · rw [List.countP_append, hsetupr, okSeg_countP_retrieve, tailNames_length]
        omega
      · have h1 : flightCount 0 (setupTrace "chrome" ++
            [CleanEvent.fetch 0, CleanEvent.submit (pageName 0 "png")]) = some 1 := by
          simp [setupTrace, flightCount, isPageSubmit, isRetrieveEv, hbeq]
        rw [flightCount_append, h1]
        simpa using okSeg_flightCount (tailNames m) 1 (tailNames_ne m)
  exact ⟨hmain.1, hmain.2.1, hmain.2.2, flightCount_bounds _ hmain.2.2⟩

/-- C7: in the steady-state loop over a whole document, for every page `k`
that is followed by a page `k+1`, the fetch of page `k+1`'s image from the
input generator occurs at an earlier trace position than the wait for page
`k`'s cleaned result (the trace's `k`-th `waitResult`): the overlapped
prefetch precedes the blocking wait. -/
theorem C7_fetch_before_wait (pc k : Nat) (cleanFn : String → Img)
    (h : k + 1 < pc) :
    ∃ i j : Nat, i < j ∧
      (fullDocRun pc cleanFn).trace[i]? = some (.fetch (k + 1)) ∧
      (fullDocRun pc cleanFn).trace[j]? = some (.waitResult 10) ∧
      ((fullDocRun pc cleanFn).trace.take j).countP isWaitResultEv = k := by
  obtain ⟨m, rfl⟩ : ∃ m, pc = m + 1 := ⟨pc - 1, by omega⟩
  rw [fullDocRun_succ]
  have hk : k ≤ (tailNames m).length := by rw [tailNames_length]; omega
  have hlen : (setupTrace "chrome" ++
      [CleanEvent.fetch 0, CleanEvent.submit (pageName 0 "png")]).length = 10 := by
    simp [setupTrace]
  refine ⟨10 + 5 * k, 10 + (5 * k + 1), by omega, ?_, ?_, ?_⟩
  · have hge := getElemAppend
      (setupTrace "chrome" ++ [CleanEvent.fetch 0, CleanEvent.submit (pageName 0 "png")])
      (okSeg (tailNames m) 1) (5 * k)
    rw [hlen] at hge
    rw [hge, okSeg_getElem_fetch (tailNames m) 1 k hk]
    rw [Nat.add_comm 1 k]
  · have hge := getElemAppend
      (setupTrace "chrome" ++ [CleanEvent.fetch 0, CleanEvent.submit (pageName 0 "png")])
      (okSeg (tailNames m) 1) (5 * k + 1)
    rw [hlen] at hge
    rw [hge, okSeg_getElem_wait (tailNames m) 1 k hk]
  · have hta := takeAppend
      (setupTrace "chrome" ++ [CleanEvent.fetch 0, CleanEvent.submit (pageName 0 "png")])
      (okSeg (tailNames m) 1) (5 * k + 1)
    rw [hlen] at hta
    rw [hta, List.countP_append, okSeg_take_wait_count (tailNames m) 1 k hk]
    have : (setupTrace "chrome" ++
        [CleanEvent.fetch 0, CleanEvent.submit (pageName 0 "png")]).countP
          isWaitResultEv = 0 := by
      simp [setupTrace, List.countP_cons, isWaitResultEv]
    rw [this]
    omega

/-- Witness for C7 at the concrete instance of a 3-page document, page
`k = 1`. -/
theorem C7_fetch_before_wait_witness :
    ∃ i j : Nat, i < j ∧
      (fullDocRun 3 constImg).trace[i]? = some (.fetch 2) ∧
      (fullDocRun 3 constImg).trace[j]? = some (.waitResult 10) ∧
      ((fullDocRun 3 constImg).trace.take j).countP isWaitResultEv = 1 :=
  C7_fetch_before_wait 3 1 constImg (by decide)

end Docleaner

namespace Docleaner

theorem countP_path_map (l : List String) (h : ∀ x ∈ l, x ≠ "") :
    (l.map Artifact.path).countP isPageArtifact = l.length := by
  induction l with
  | nil => rfl
  | cons x l ih =>
    have hx : (x == "") = false := beq_eq_false_iff_ne.mpr (h x (by simp))
    simp only [List.map_cons, List.countP_cons, isPageArtifact, hx]
    rw [ih (fun y hy => h y (by simp [hy]))]
    simp

theorem countP_img_map (l : List Img) :
    (l.map Artifact.img).countP isPageArtifact = l.length := by
  induction l with
  | nil => rfl
  | cons x l ih =>
    simp only [List.map_cons, List.countP_cons, isPageArtifact]
    rw [ih]
    simp

/-- C4: for every valid 1-based inclusive page range, the stream of page
artifacts that `main` hands to the assembly stage contains exactly
`lastPage - firstPage` page artifacts under the normalized bounds
(`firstPage - 1` to `lastPage`, half-open), i.e. one artifact per requested
page — both with cleaning enabled (cleaned images) and disabled (page file
paths); the `""` lifetime sentinel is not a page artifact. -/
theorem C4_artifact_count (pc : Nat) (first last : Int) (cleaning : Bool)
    (cleanFn : String → Img) (h1 : 1 ≤ first) (h2 : first ≤ last)
    (h3 : last ≤ (pc : Int)) :
    (mainImages pc "png" "chrome" (some first) (some last) cleaning allOk
        cleanFn).1.countP isPageArtifact = (last - (first - 1)).toNat := by
  have hcv := convertPdf_valid pc "png" first last h1 h3
  have hlen : ((pythonRange (first - 1) last).map
      (fun i => pageName i "png")).length = (last - (first - 1)).toNat := by
    rw [List.length_map, pythonRange_length]
  have hne : ∀ x ∈ (pythonRange (first - 1) last).map
      (fun i => pageName i "png"), x ≠ "" := by
    intro x hx
    simp only [List.mem_map] at hx
    rcases hx with ⟨i, _, rfl⟩
    exact pageName_ne _ _
  cases cleaning with
  | false =>
    simp only [mainImages, hcv, Bool.false_eq_true, if_neg, not_false_iff]
    rw [List.map_append, List.countP_append, countP_path_map _ hne, hlen]
    have hsent : (([""].map Artifact.path).countP isPageArtifact) = 0 := rfl
    rw [hsent]
    omega
  | true =>
    simp only [mainImages, hcv, if_pos]
    rcases hnm : (pythonRange (first - 1) last).map (fun i => pageName i "png")
      with _ | ⟨n, rest⟩
    · exfalso
      rw [hnm] at hlen
      simp at hlen
      omega
    · rw [hnm] at hne hlen
      have hr := cleanRun_cons "chrome" (by decide) cleanFn n rest
        (fun x hx => hne x (by simp [hx]))
      simp only [hr]
      rw [countP_img_map, List.length_map, hlen]

/-- Witness for C4: a 3-page document, pages 2..3, cleaning enabled:
2 artifacts. -/
theorem C4_artifact_count_witness :
    (mainImages 3 "png" "chrome" (some 2) (some 3) true allOk
        constImg).1.countP isPageArtifact = ((3 : Int) - ((2 : Int) - 1)).toNat :=
  C4_artifact_count 3 2 3 true constImg (by decide) (by decide) (by decide)

end Docleaner

namespace Docleaner

/-- C5 counterexample: with a 3-page document and `firstPage = 2 >
lastPage = 1`, no configuration or out-of-range error is raised anywhere:
range normalization silently yields an empty range (the generator produces
only the `""` sentinel and terminates normally), the whole pipeline runs,
and the only failure is a zero-page `ValueError` at `doc.save` time — not
a configuration or out-of-range error — so the claim as stated is false. -/
theorem C5_counterexample :
    (convertPdfToImages 3 "png" none (some 2) (some 1)).term = none ∧
    (convertPdfToImages 3 "png" none (some 2) (some 1)).items = [""] ∧
    (mainRun 3 "png" "chrome" (some 2) (some 1) false true allOk constImg
        recOk recPathOk).result = .error (.valueError "cannot save with zero pages") ∧
    (mainRun 3 "png" "chrome" (some 2) (some 1) false true allOk constImg
        recOk recPathOk).saved = none :=
  ⟨rfl, rfl, rfl, rfl⟩

/-- C5 (amended): if `lastPage` exceeds the document's page count (with
`firstPage ≤ lastPage`), the run does fail with fitz's out-of-range
`IndexError`, raised when the first out-of-range page is rendered; but if
`firstPage > lastPage` there is no validation at all: the normalized range
is empty, zero pages are produced without error, and the run only fails at
the very end with a zero-page save `ValueError` — not a configuration or
out-of-range error. -/
theorem C5_amended (pc : Nat) (first last : Int) (cleanFn : String → Img)
    (recImg : Img → Except PyError (List Page))
    (recPath : String → Except PyError (List Page)) :
    (first ≤ last → (pc : Int) < last →
      (convertPdfToImages pc "png" none (some first) (some last)).term
        = some (.indexError "page not in document")) ∧
    (last < first →
      (convertPdfToImages pc "png" none (some first) (some last)).term = none ∧
      (convertPdfToImages pc "png" none (some first) (some last)).items = [""] ∧
      (mainRun pc "png" "chrome" (some first) (some last) false true allOk
          cleanFn recImg recPath).result
        = .error (.valueError "cannot save with zero pages") ∧
      (mainRun pc "png" "chrome" (some first) (some last) false true allOk
          cleanFn recImg recPath).saved = none) := by
  constructor
  · intro hfl hpc
    have herr : (renderLoop pc "png" (pythonRange (first - 1) last)).2
        = some (.indexError "page not in document") := by
      apply renderLoop_err
      by_cases hcase : first - 1 < (pc : Int)
      · refine ⟨(pc : Int), ?_, ?_⟩
        · rw [pythonRange_mem]
          omega
        · have hd : decide ((pc : Int) < (pc : Int)) = false :=
            decide_eq_false (by omega)
          unfold pageInDoc
          rw [hd, Bool.and_false]
      · refine ⟨first - 1, ?_, ?_⟩
        · rw [pythonRange_mem]
          omega
        · have hd : decide ((first - 1) < (pc : Int)) = false :=
            decide_eq_false (by omega)
          unfold pageInDoc
          rw [hd, Bool.and_false]
    rcases hout : renderLoop pc "png" (pythonRange (first - 1) last) with ⟨its, t⟩
    rw [hout] at herr
    simp only at herr
    subst herr
    simp [convertPdfToImages, hout]
  · intro hlf
    have hempty : pythonRange (first - 1) last = [] := by
      unfold pythonRange
      rw [show (last - (first - 1)).toNat = 0 by omega]
      rfl
    have hconv : convertPdfToImages pc "png" none (some first) (some last)
        = ⟨[""], none⟩ := by
      simp [convertPdfToImages, hempty, renderLoop]
    have hcl : cleanDocOnline "chrome" allOk cleanFn [""] none
        = ⟨setupTrace "chrome" ++ [.fetch 0, .submit "", .fetch 1, .quit],
           [], none⟩ := rfl
    have hmi : mainImages pc "png" "chrome" (some first) (some last) true
        allOk cleanFn = ([], none) := by
      simp [mainImages, hconv, hcl]
    have hmr : mainRun pc "png" "chrome" (some first) (some last) false true
        allOk cleanFn recImg recPath = convertImagesToPdf false recImg recPath [] none := by
      unfold mainRun
      rw [hmi]
    exact ⟨by rw [hconv], by rw [hconv], by rw [hmr]; rfl, by rw [hmr]; rfl⟩

/-- Witness for the amended C5, exercising both branches: lastPage `5`
beyond a 3-page document raises the out-of-range `IndexError`; firstPage
`3 >` lastPage `1` on a 4-page document yields zero pages without error
and fails only with the zero-page save `ValueError`. -/
theorem C5_amended_witness :
    (convertPdfToImages 3 "png" none (some 1) (some 5)).term
        = some (.indexError "page not in document") ∧
    ((convertPdfToImages 4 "png" none (some 3) (some 1)).term = none ∧
      (convertPdfToImages 4 "png" none (some 3) (some 1)).items = [""] ∧
      (mainRun 4 "png" "chrome" (some 3) (some 1) false true allOk constImg
          recOk recPathOk).result
        = .error (.valueError "cannot save with zero pages") ∧
      (mainRun 4 "png" "chrome" (some 3) (some 1) false true allOk constImg
          recOk recPathOk).saved = none) :=
  ⟨(C5_amended 3 1 5 constImg recOk recPathOk).1 (by decide) (by decide),
   (C5_amended 4 3 1 constImg recOk recPathOk).2 (by decide)⟩

end Docleaner

namespace Docleaner

theorem cleanDoc_cons (b : String) (hb : b ∈ allowedBrowsers)
    (waitOk : Nat → Bool) (h0 : waitOk 0 = true) (h1 : waitOk 1 = true)
    (h2 : waitOk 2 = true) (cleanFn : String → Img) (p : String)
    (rest : List String) (term : Option PyError) :
    cleanDocOnline b waitOk cleanFn (p :: rest) term =
      cleanLoop waitOk cleanFn term p rest 1 3
        (setupTrace b ++ [.fetch 0, .submit p]) [] := by
  simp [cleanDocOnline, hb, h0, h1, h2, setupTrace]

/-- C6: if a stage errors mid-run — the upstream generator (rendering or
cleaning) raising instead of yielding, or recognition failing on an
artifact — then `convert_images_to_pdf` propagates an error to the caller,
`doc.save` is never reached, and no output file is written. -/
theorem C6_no_output_on_error (ocr : Bool)
    (recImg : Img → Except PyError (List Page))
    (recPath : String → Except PyError (List Page))
    (arts : List Artifact) (term : Option PyError)
    (h : term ≠ none ∨ ∃ a ∈ arts, exceptOk (asmStep ocr recImg recPath a) = false) :
    (convertImagesToPdf ocr recImg recPath arts term).saved = none ∧
    (∃ e, (convertImagesToPdf ocr recImg recPath arts term).result = .error e) ∧
    AsmEvent.save ∉ (convertImagesToPdf ocr recImg recPath arts term).trace := by
  rcases hloop : asmLoop ocr recImg recPath arts [] [] with ⟨tr, res⟩
  have hsave : AsmEvent.save ∉ tr := by
    intro hs
    have hmem := asmLoop_events ocr recImg recPath arts [] [] AsmEvent.save
      (by rw [hloop]; exact hs)
    rcases hmem with h2 | h2
    · simp at h2
    · simp at h2
  rcases res with e | pages
  · simp only [convertImagesToPdf, hloop]
    exact ⟨by trivial, ⟨e, by trivial⟩, hsave⟩
  · have hterm : ∃ e, term = some e := by
      rcases h with h | ⟨a, ha, haf⟩
      · rcases term with _ | e
        · exact absurd rfl h
        · exact ⟨e, rfl⟩
      · exfalso
        rcases asmLoop_err ocr recImg recPath arts [] [] ⟨a, ha, haf⟩ with ⟨e, he⟩
        rw [hloop] at he
        simp at he
    rcases hterm with ⟨e, rfl⟩
    simp only [convertImagesToPdf, hloop]
    exact ⟨by trivial, ⟨e, by trivial⟩, hsave⟩

/-- Witness for C6: a failing recognizer on a single image artifact aborts
the assembly with no save. -/
theorem C6_no_output_on_error_witness :
    (convertImagesToPdf true recFail recPathOk [Artifact.img ⟨2, 3⟩] none).saved
        = none ∧
    (∃ e, (convertImagesToPdf true recFail recPathOk [Artifact.img ⟨2, 3⟩]
        none).result = .error e) ∧
    AsmEvent.save ∉
      (convertImagesToPdf true recFail recPathOk [Artifact.img ⟨2, 3⟩] none).trace :=
  C6_no_output_on_error true recFail recPathOk [Artifact.img ⟨2, 3⟩] none
    (Or.inr ⟨Artifact.img ⟨2, 3⟩, by simp, rfl⟩)

/-- C8 evaluated at its failing input: with cleaning and OCR both disabled
on a one-page document, `main` feeds the page's file-path string (not a
decoded image) into `convert_images_to_pdf`, whose non-OCR branch reads
`.width` on it and raises `AttributeError` at the very first page; the run
aborts and no output is written, so the pipeline is not a working pure
conversion/merge in this mode. -/
theorem C8_pure_merge_crashes :
    (mainRun 1 "png" "chrome" none none false false allOk constImg recOk
        recPathOk).result
      = .error (.attributeError "str object has no attribute width") ∧
    (mainRun 1 "png" "chrome" none none false false allOk constImg recOk
        recPathOk).saved = none ∧
    (mainRun 1 "png" "chrome" none none false false allOk constImg recOk
        recPathOk).trace = [.consume] :=
  ⟨rfl, rfl, rfl⟩

/-- C9: every `WebDriverWait` recorded in any run of the interactive
cleaner — element waits and result waits alike — carries the bounded
timeout of 10 time units; and when the result wait for page `k` of a
whole-document run expires, the run aborts with `TimeoutException` having
yielded exactly the `k` earlier pages: the failed page is not silently
skipped. -/
theorem C9_bounded_waits (b : String) (waitOk : Nat → Bool)
    (cleanFn : String → Img) (images : List String) (term : Option PyError)
    (t : Nat) (pc k : Nat)
    (hmem : CleanEvent.waitElem t ∈ (cleanDocOnline b waitOk cleanFn images term).trace ∨
            CleanEvent.waitResult t ∈ (cleanDocOnline b waitOk cleanFn images term).trace)
    (hk : k < pc) :
    t = 10 ∧
    (fullDocRunFail pc k).term = some .timeoutException ∧
    (fullDocRunFail pc k).yields.length = k ∧
    CleanEvent.quit ∉ (fullDocRunFail pc k).trace := by
  obtain ⟨m, rfl⟩ : ∃ m, pc = m + 1 := ⟨pc - 1, by omega⟩
  have ho0 : (!((0 : Nat) == 3 + k)) = true := by
    rw [beq_eq_false_iff_ne.mpr (by omega : (0 : Nat) ≠ 3 + k)]
    rfl
  have ho1 : (!((1 : Nat) == 3 + k)) = true := by
    rw [beq_eq_false_iff_ne.mpr (by omega : (1 : Nat) ≠ 3 + k)]
    rfl
  have ho2 : (!((2 : Nat) == 3 + k)) = true := by
    rw [beq_eq_false_iff_ne.mpr (by omega : (2 : Nat) ≠ 3 + k)]
    rfl
  have hitems : (convertPdfToImages (m + 1) "png" none none none).items
      = natPageNames (m + 1) ++ [""] := by rw [convertPdf_fullDoc]
  have hterm : (convertPdfToImages (m + 1) "png" none none none).term = none := by
    rw [convertPdf_fullDoc]
  have hchar : fullDocRunFail (m + 1) k =
      cleanLoop (fun n => !(n == 3 + k)) constImg none (pageName 0 "png")
        (tailNames m ++ [""]) 1 3
        (setupTrace "chrome" ++ [.fetch 0, .submit (pageName 0 "png")]) [] := by
    unfold fullDocRunFail
    rw [hitems, hterm, natPageNames_succ, List.cons_append]
    exact cleanDoc_cons "chrome" (by decide) (fun n => !(n == 3 + k)) ho0 ho1
      ho2 constImg (pageName 0 "png") (tailNames m ++ [""]) none
  rcases cleanLoop_timeout constImg k (tailNames m) (pageName 0 "png") 1 3
      (setupTrace "chrome" ++ [.fetch 0, .submit (pageName 0 "png")]) []
      (tailNames_ne m) (by rw [tailNames_length]; omega) with ⟨ht, hy, hq⟩
  refine ⟨cleanDoc_waits b waitOk cleanFn images term t hmem, ?_, ?_, ?_⟩
  · rw [hchar]
    exact ht
  · rw [hchar, hy]
    rw [List.nil_append, List.length_map, List.length_take, List.length_cons,
      tailNames_length]
    omega
  · rw [hchar]
    apply hq
    simp [setupTrace]

/-- Witness for C9 at a concrete successful 1-page run (for the timeout
bound) and the 2-page run whose second result wait expires. -/
theorem C9_bounded_waits_witness :
    10 = 10 ∧
    (fullDocRunFail 2 1).term = some .timeoutException ∧
    (fullDocRunFail 2 1).yields.length = 1 ∧
    CleanEvent.quit ∉ (fullDocRunFail 2 1).trace :=
  C9_bounded_waits "chrome" allOk constImg ["a.png", ""] none 10 2 1
    (Or.inl (by decide)) (by decide)

end Docleaner
